import Mathlib

/-!
Verification of `nemo/deploy/nlp/megatrongpt_deployable.py`, a thin adapter
that exposes a Megatron GPT model over a tensor-based serving protocol
(pytriton).  This file is a shallow embedding of the module: python values,
numpy dtypes and arrays, the schema-derivation helpers, the per-request
parameter extraction, and the inference entry point `triton_infer_fn` are
translated into executable Lean definitions, and the behavioural properties
of the module are proved about them.
-/

set_option maxHeartbeats 1000000

namespace MegatronDeploy

/-- Torch element dtypes that the adapter distinguishes: the only test the
code performs is `value[0].dtype == torch.bfloat16`, but we keep the usual
float dtypes so a tensor can be something other than bfloat16. -/
inductive TorchDtype where
  | bfloat16
  | float32
  | float64
  | int64
deriving DecidableEq, Repr

/-- Python runtime values appearing in the module: parameter-dictionary
defaults, the `_BLANK_OUTPUTTYPE` placeholders, and the per-field values of
the model's generate result.  Strings are modelled as lists of unicode
codepoints so that the byte-string encoding performed on output is explicit.
A torch tensor carries its dtype and its (one-dimensional) numeric data. -/
inductive PyVal where
  | str (s : List Nat)
  | boolean (b : Bool)
  | float (q : Rat)
  | int (n : Int)
  | list (l : List PyVal)
  | tensor (dtype : TorchDtype) (data : List Rat)

/-- Python exception classes raised by the module's code paths.  `indexError`
and `keyError` are the two subclasses of python's `LookupError` that occur
here; `attributeError` is what accessing the never-set `self.model` raises. -/
inductive PyErr where
  | indexError
  | keyError
  | attributeError
  | typeError
  | valueError
  | unicodeError
deriving DecidableEq, Repr

/-- Whether the exception is an instance of python's `LookupError`
(`IndexError` and `KeyError` are its subclasses; the others are not). -/
def PyErr.isLookupError : PyErr → Bool
  | .indexError => true
  | .keyError => true
  | _ => false

/-- Numpy element dtypes used by the adapter.  `bytes` is the byte-string
dtype, `single` is `np.single` (float32), `int_` is `np.int_`, `bool_` is
`np.bool_`; `float64` and `unicode` only arise from `np.array` dtype
inference in the pass-through output branch. -/
inductive NumpyDtype where
  | bytes
  | bool_
  | single
  | int_
  | float64
  | unicode
deriving DecidableEq, Repr

/-- Source `GetTensorShape` (lines 41-42): lists get the variable-length
shape `(-1,)`, everything else is a scalar with shape `(1,)`. -/
def GetTensorShape (pyvalue : PyVal) : List Int :=
  match pyvalue with
  | .list _ => [-1]
  | _ => [1]

/-- Lookup in the source's `py_to_numpy_mapping` dictionary
`{str: bytes, bool: np.bool_, float: np.single, int: np.int_}` keyed on the
python type of the value; a type that is not a key (e.g. `list` or a torch
tensor) raises `KeyError`. -/
def py_to_numpy_mapping (v : PyVal) : Except PyErr NumpyDtype :=
  match v with
  | .str _ => .ok .bytes
  | .boolean _ => .ok .bool_
  | .float _ => .ok .single
  | .int _ => .ok .int_
  | _ => .error .keyError

/-- Source `GetNumpyDtype` (lines 47-56): for a list, substitute the type of
its first element (`pyvalue[0]`, which raises `IndexError` on an empty
list), then look the python type up in `py_to_numpy_mapping`. -/
def GetNumpyDtype (pyvalue : PyVal) : Except PyErr NumpyDtype :=
  match pyvalue with
  | .list [] => .error .indexError
  | .list (x :: _) => py_to_numpy_mapping x
  | v => py_to_numpy_mapping v

/-- A pytriton tensor descriptor: name, shape, element dtype, and whether
the input is optional. -/
structure Tensor where
  name : String
  shape : List Int
  dtype : NumpyDtype
  optional : Bool
deriving DecidableEq, Repr

/-- The source's `_INPUT_PARAMETER_FIELDS = {"prompts": (-1, bytes, False)}`
rendered as the descriptor it produces. -/
def promptsDescriptor : Tensor :=
  { name := "prompts", shape := [-1], dtype := .bytes, optional := false }

/-- The source's `_BLANK_OUTPUTTYPE` placeholder record (lines 91-98). -/
def _BLANK_OUTPUTTYPE : List (String × PyVal) :=
  [("sentences", .list [.str []]),
   ("tokens", .list [.list [.str []]]),
   ("logprob", .list [.list [.float 0]]),
   ("full_logprob", .list [.list [.float 0]]),
   ("token_ids", .list [.list [.int 0]]),
   ("offsets", .list [.list [.int 0]])]

/-- One optional input descriptor for a default-parameter entry, as built in
`get_triton_input`: shape from `GetTensorShape`, dtype from `GetNumpyDtype`
(which can raise), `optional=True`. -/
def paramDescriptor (p : String × PyVal) : Except PyErr Tensor :=
  (GetNumpyDtype p.2).map fun dt =>
    { name := p.1, shape := GetTensorShape p.2, dtype := dt, optional := true }

/-- Source `get_triton_input` (lines 100-132), parameterized by the two
default dictionaries that the external providers `get_default_sampling_params`
and `get_default_length_params` return: the fixed required `prompts`
descriptor, then one optional descriptor per sampling-parameter key, then
one per length-parameter key.  A dtype-derivation failure propagates. -/
def get_triton_input (default_sampling_params default_length_params : List (String × PyVal)) :
    Except PyErr (List Tensor) := do
  let input_parameters : List Tensor := [promptsDescriptor]
  let sampling_parameters ← default_sampling_params.mapM paramDescriptor
  let length_parameters ← default_length_params.mapM paramDescriptor
  .ok (input_parameters ++ sampling_parameters ++ length_parameters)

/-- Python subscription `v[0]`: first element of a list or one-character
string; an empty list or string raises `IndexError`; subscripting any other
value here raises `TypeError`. -/
def pySubscript0 (v : PyVal) : Except PyErr PyVal :=
  match v with
  | .list [] => .error .indexError
  | .list (x :: _) => .ok x
  | .str [] => .error .indexError
  | .str (c :: _) => .ok (.str [c])
  | _ => .error .typeError

/-- One output descriptor for a `_BLANK_OUTPUTTYPE` entry, as built in
`get_triton_output`: shape from the placeholder value, dtype from the
placeholder's first element, not optional. -/
def outputDescriptor (p : String × PyVal) : Except PyErr Tensor := do
  let first ← pySubscript0 p.2
  let dt ← GetNumpyDtype first
  .ok { name := p.1, shape := GetTensorShape p.2, dtype := dt, optional := false }

/-- Source `get_triton_output` (lines 134-143): one descriptor per key of
`_BLANK_OUTPUTTYPE`. -/
def get_triton_output : Except PyErr (List Tensor) :=
  _BLANK_OUTPUTTYPE.mapM outputDescriptor

/-- A unicode codepoint that UTF-8 can encode: in range and not a
surrogate. -/
def ValidCodepoint (c : Nat) : Prop :=
  c < 0x110000 ∧ (c < 0xD800 ∨ 0xE000 ≤ c)

instance (c : Nat) : Decidable (ValidCodepoint c) := by
  unfold ValidCodepoint; infer_instance

/-- UTF-8 encoding of one codepoint into its 1-4 bytes. -/
def utf8EncodeChar (c : Nat) : List Nat :=
  if c < 0x80 then [c]
  else if c < 0x800 then [0xC0 + c / 64, 0x80 + c % 64]
  else if c < 0x10000 then [0xE0 + c / 4096, 0x80 + c / 64 % 64, 0x80 + c % 64]
  else [0xF0 + c / 262144, 0x80 + c / 4096 % 64, 0x80 + c / 64 % 64, 0x80 + c % 64]

/-- UTF-8 encoding of a whole string (list of codepoints) into bytes. -/
def utf8EncodeStr (s : List Nat) : List Nat :=
  (s.map utf8EncodeChar).flatten

/-- Whether a byte is a UTF-8 continuation byte (`0x80..0xBF`). -/
def isContByte (b : Nat) : Bool :=
  0x80 ≤ b && b < 0xC0

/-- State of a left-to-right strict UTF-8 decoder: the codepoints decoded
so far, possibly in the middle of a multi-byte sequence (`expect` carries
the number of continuation bytes still needed, the partial codepoint and
the smallest codepoint the sequence is allowed to produce — the overlong
check), or failed. -/
inductive Utf8State where
  | clean (acc : List Nat)
  | expect (need : Nat) (partialC : Nat) (minC : Nat) (acc : List Nat)
  | bad
deriving DecidableEq, Repr

/-- One byte of strict UTF-8 decoding: lead bytes open a sequence sized by
their range (rejecting `0x80..0xC1` and `0xF5..`), continuation bytes
extend it, and the final byte checks the overlong bound, the surrogate gap
and the `0x110000` ceiling, the way strict decoding in python does. -/
def utf8Step (st : Utf8State) (b : Nat) : Utf8State :=
  match st with
  | .bad => .bad
  | .clean acc =>
    if b < 0x80 then .clean (acc ++ [b])
    else if b < 0xC2 then .bad
    else if b < 0xE0 then .expect 1 (b - 0xC0) 0x80 acc
    else if b < 0xF0 then .expect 2 (b - 0xE0) 0x800 acc
    else if b < 0xF5 then .expect 3 (b - 0xF0) 0x10000 acc
    else .bad
  | .expect need pc minC acc =>
    if isContByte b then
      match need with
      | 1 =>
        if minC ≤ pc * 64 + (b - 0x80) ∧
            (pc * 64 + (b - 0x80) < 0xD800 ∨ 0xE000 ≤ pc * 64 + (b - 0x80)) ∧
            pc * 64 + (b - 0x80) < 0x110000 then
          .clean (acc ++ [pc * 64 + (b - 0x80)])
        else .bad
      | need' + 1 => .expect need' (pc * 64 + (b - 0x80)) minC acc
      | 0 => .bad
    else .bad

/-- Strict UTF-8 decoding of a byte list back into codepoints, rejecting
truncated sequences, stray continuation bytes, overlong encodings,
surrogates and out-of-range values (strict decoding, as python does). -/
def utf8Decode (bs : List Nat) : Option (List Nat) :=
  match bs.foldl utf8Step (.clean []) with
  | .clean acc => some acc
  | _ => none

/-- One element of a numpy array: a byte string, a unicode string, a
boolean, or a number (float or integer, told apart by the array dtype). -/
inductive NpLit where
  | bytes (bs : List Nat)
  | ustr (s : List Nat)
  | boolean (b : Bool)
  | num (q : Rat)
deriving DecidableEq, Repr

/-- A numpy ndarray: element dtype, shape, and row-major flattened data. -/
structure NpArray where
  dtype : NumpyDtype
  shape : List Nat
  data : List NpLit
deriving DecidableEq, Repr

mutual

/-- numpy `np.shape` of a python value: scalars (strings included) have
shape `()`, a one-dimensional torch tensor has its length, and a list
prepends its length to the common shape of its elements (no common shape
meaning the nesting stops being regular there). -/
def np_shape : PyVal → List Nat
  | .list l => l.length :: np_shapeRows l
  | .tensor _ data => [data.length]
  | _ => []

/-- Common shape of the rows of a list value, `[]` when they disagree. -/
def np_shapeRows : List PyVal → List Nat
  | [] => []
  | x :: xs => if np_shapeAll xs (np_shape x) then np_shape x else []

/-- Whether every value in the list has the given numpy shape. -/
def np_shapeAll : List PyVal → List Nat → Bool
  | [], _ => true
  | x :: xs, s => (np_shape x == s) && np_shapeAll xs s

end

mutual

/-- The scalar leaves of a nested python value in row-major order, torch
tensors expanded into their numeric elements. -/
def pyLeaves : PyVal → List PyVal
  | .list l => pyLeavesList l
  | .tensor _ data => data.map (fun q => .float q)
  | v => [v]

/-- Concatenated leaves of a list of python values. -/
def pyLeavesList : List PyVal → List PyVal
  | [] => []
  | x :: xs => pyLeaves x ++ pyLeavesList xs

end

/-- Truncation toward zero, what numpy's cast from float to a native
integer dtype does to the value. -/
def ratTrunc (q : Rat) : Int :=
  if q < 0 then ⌈q⌉ else ⌊q⌋

/-- Cast one scalar python value to a numpy element of the given dtype:
text is UTF-8 encoded for the byte-string dtype, numbers are carried over
for the numeric dtypes; a combination numpy would reject raises. -/
def castScalar (dtype : NumpyDtype) (v : PyVal) : Except PyErr NpLit :=
  match dtype, v with
  | .bytes, .str s => .ok (.bytes (utf8EncodeStr s))
  | .unicode, .str s => .ok (.ustr s)
  | .bool_, .boolean b => .ok (.boolean b)
  | .single, .float q => .ok (.num q)
  | .single, .int n => .ok (.num n)
  | .single, .boolean b => .ok (.num (if b then 1 else 0))
  | .int_, .int n => .ok (.num n)
  | .int_, .float q => .ok (.num (ratTrunc q))
  | .int_, .boolean b => .ok (.num (if b then 1 else 0))
  | .float64, .float q => .ok (.num q)
  | .float64, .int n => .ok (.num n)
  | .float64, .boolean b => .ok (.num (if b then 1 else 0))
  | _, _ => .error .typeError

/-- numpy `np.full(shape, fill, dtype)` as the adapter calls it: the fill
value is a scalar or a one-element list (shape `(1,)` broadcasts to any
shape), and every element of the result is the fill cast to the dtype.
The placeholder fills the adapter passes are always of this form. -/
def np_full (shape : List Nat) (fill : PyVal) (dtype : NumpyDtype) : Except PyErr NpArray := do
  let scalar ← match fill with
    | .list [x] => Except.ok x
    | .list _ => Except.error .valueError
    | v => Except.ok v
  let lit ← castScalar dtype scalar
  .ok { dtype := dtype, shape := shape, data := List.replicate shape.prod lit }

/-- numpy dtype inference for `np.array` over the scalar leaves: any string
makes a unicode array, else any float makes `float64`, else an all-boolean
(nonempty) list is boolean, everything else (including the empty list,
which numpy defaults to `float64`) is the native integer dtype. -/
def inferDtype (leaves : List PyVal) : NumpyDtype :=
  if leaves.any (fun v => match v with | .str _ => true | _ => false) then .unicode
  else if leaves.any (fun v => match v with | .float _ => true | _ => false) then
    if leaves.all (fun v => match v with | .float _ => true | _ => false) then .float64
    else .float64
  else if leaves.isEmpty then .float64
  else if leaves.all (fun v => match v with | .boolean _ => true | _ => false) then .bool_
  else .int_

/-- numpy `np.array(value)` on a nested python value: infer the dtype from
the leaves, take the nested shape, and flatten; a ragged nesting raises. -/
def np_array (v : PyVal) : Except PyErr NpArray := do
  let leaves := pyLeaves v
  let dtype := inferDtype leaves
  let shape := np_shape v
  if shape.prod = leaves.length then
    let data ← leaves.mapM (castScalar dtype)
    .ok { dtype := dtype, shape := shape, data := data }
  else .error .valueError

/-- Modelled from the spec: `cast_output` (imported from `nemo.deploy.utils`,
which is not under `src/`) casts a value to a required dtype — for the
byte-string target every element is encoded from native text to byte-string
encoding, for numeric targets the elements (torch tensors included) are
cast to the declared numeric type — and returns a numpy array shaped like
the input. -/
def cast_output (v : PyVal) (dtype : NumpyDtype) : Except PyErr NpArray := do
  let leaves := pyLeaves v
  let shape := np_shape v
  if shape.prod = leaves.length then
    let data ← leaves.mapM (castScalar dtype)
    .ok { dtype := dtype, shape := shape, data := data }
  else .error .valueError

/-- numpy `np.array` over a list of already-built arrays (the list
comprehensions of the tensor branches): equal shapes and dtypes stack into
one array with a new leading dimension; anything else raises. -/
def np_stackArrays (arrays : List NpArray) : Except PyErr NpArray :=
  match arrays with
  | [] => .ok { dtype := .float64, shape := [0], data := [] }
  | a :: rest =>
    if rest.all (fun b => b.shape == a.shape && b.dtype == a.dtype) then
      .ok { dtype := a.dtype, shape := (rest.length + 1) :: a.shape,
            data := ((a :: rest).map NpArray.data).flatten }
    else .error .valueError

/-- Modelled from the spec: `str_ndarray2list` (imported from
`nemo.deploy.utils`, not under `src/`) decodes a byte-string ndarray into
the sequence of native strings it holds. -/
def str_ndarray2list (a : NpArray) : Except PyErr (List (List Nat)) :=
  a.data.mapM (fun lit =>
    match lit with
    | .bytes bs =>
      match utf8Decode bs with
      | some s => .ok s
      | none => .error .unicodeError
    | _ => .error .attributeError)

/-- Lookup of a key in a python-dict-as-association-list (first match; a
python dict has unique keys). -/
def dictGet (k : String) : List (String × α) → Option α
  | [] => none
  | (k', v) :: rest => if k' = k then some v else dictGet k rest

/-- Removal of a key from a python-dict-as-association-list, as `dict.pop`
leaves the dict (first occurrence removed). -/
def dictRemove (k : String) : List (String × α) → List (String × α)
  | [] => []
  | (k', v) :: rest => if k' = k then rest else (k', v) :: dictRemove k rest

/-- A value sitting in a parameter dictionary after extraction: either the
provider's default, or the numpy scalar `inputs[k][0][0]` taken from the
request batch. -/
inductive ParamVal where
  | default (v : PyVal)
  | fromTensor (x : NpLit)

/-- The numpy subscription `arr[0][0]` performed on a request tensor: the
first element of the first row.  An empty leading dimension raises
`IndexError`, and so does subscripting the numpy scalar that a
one-dimensional array yields after one subscription. -/
def ndarray_first00 (a : NpArray) : Except PyErr NpLit :=
  match a.shape with
  | [] => .error .indexError
  | d0 :: restDims =>
    if d0 = 0 then .error .indexError
    else
      match restDims with
      | [] => .error .indexError
      | d1 :: _ =>
        if d1 = 0 then .error .indexError
        else
          match a.data with
          | x :: _ => .ok x
          | [] => .error .indexError

/-- The loop shared by `_sampling_params_from_triton_inputs` and
`_length_params_from_triton_inputs` (lines 145-159): walk the default
dictionary's keys in order and, for each key present in the request inputs,
pop the key from the (local) inputs and override the default with the
popped tensor's `[0][0]` element.  Returns the finished parameter
dictionary together with what is left of the local inputs dict after the
pops. -/
def paramsFromTritonInputs (defaults : List (String × PyVal)) (inputs : List (String × NpArray)) :
    Except PyErr (List (String × ParamVal) × List (String × NpArray)) :=
  match defaults with
  | [] => .ok ([], inputs)
  | (k, dv) :: rest =>
    match dictGet k inputs with
    | none =>
      (paramsFromTritonInputs rest inputs).map fun p => ((k, .default dv) :: p.1, p.2)
    | some arr => do
      let x ← ndarray_first00 arr
      let p ← paramsFromTritonInputs rest (dictRemove k inputs)
      .ok ((k, .fromTensor x) :: p.1, p.2)

/-- Source `_sampling_params_from_triton_inputs` (lines 145-159),
parameterized by the dictionary the external `get_default_sampling_params`
provider returns.  The `**inputs` signature means the function works on its
own copy of the caller's dict, so the residual dict after the pops is
discarded here. -/
def _sampling_params_from_triton_inputs (defaults : List (String × PyVal))
    (inputs : List (String × NpArray)) : Except PyErr (List (String × ParamVal)) :=
  (paramsFromTritonInputs defaults inputs).map (fun p => p.1)

/-- Source `_length_params_from_triton_inputs` (lines 153-159), the same
loop over the length-parameter defaults. -/
def _length_params_from_triton_inputs (defaults : List (String × PyVal))
    (inputs : List (String × NpArray)) : Except PyErr (List (String × ParamVal)) :=
  (paramsFromTritonInputs defaults inputs).map (fun p => p.1)

/-- Modelled from the spec: the model's generate result is "a structured
result keyed by the same names as the output schema" (the `OutputType`
typed dictionary imported from `text_generation_utils`, not under `src/`):
the six output fields, each possibly null when the model did not produce
it. -/
structure OutputType where
  sentences : Option PyVal
  tokens : Option PyVal
  logprob : Option PyVal
  full_logprob : Option PyVal
  token_ids : Option PyVal
  offsets : Option PyVal

/-- The generate operation of the loaded model: decoded prompt strings plus
the two parameter dictionaries in, structured result out.  The model
runtime itself is external, so generation is an opaque function here. -/
def GenFn : Type :=
  List (List Nat) → List (String × ParamVal) → List (String × ParamVal) → OutputType

/-- A constructed `MegatronGPTDeployable` instance: the checkpoint path it
was given and the model attribute, which `_load` only sets when the
checkpoint path exists (`model = none` models the attribute never being
assigned). -/
structure MegatronGPTDeployable where
  nemo_checkpoint_filepath : String
  model : Option GenFn

/-- Source `_load` (lines 64-83): when the checkpoint path exists, restore
the model (trainer setup, configuration override and weight loading are the
external runtime's work, abstracted as `restore`) and set the `model`
attribute; when it does not, do nothing, leaving the attribute unset. -/
def _load (fsExists : String → Bool) (restore : String → Nat → Nat → GenFn)
    (nemo_checkpoint_filepath : String) (num_devices num_nodes : Nat) : Option GenFn :=
  if fsExists nemo_checkpoint_filepath then
    some (restore nemo_checkpoint_filepath num_devices num_nodes)
  else none

/-- Source `__init__` (lines 60-62): record the path and run `_load`. -/
def construct (fsExists : String → Bool) (restore : String → Nat → Nat → GenFn)
    (nemo_checkpoint_filepath : String) (num_devices num_nodes : Nat) :
    MegatronGPTDeployable :=
  { nemo_checkpoint_filepath := nemo_checkpoint_filepath,
    model := _load fsExists restore nemo_checkpoint_filepath num_devices num_nodes }

/-- numpy `np.shape` of an optional field value; `None` is a scalar for
numpy, so its shape is `()`. -/
def np_shapeOpt : Option PyVal → List Nat
  | none => []
  | some v => np_shape v

/-- One element of the bfloat16 list comprehension of `triton_infer_fn`
(line 194): `tensor.cpu().float().numpy()` upcasts the tensor to float32
(exact on bfloat16 values) and yields a float32 numpy array; a list element
that is not a torch tensor has no `.cpu` attribute. -/
def tensorFloatNumpy (v : PyVal) : Except PyErr NpArray :=
  match v with
  | .tensor _ data =>
    .ok { dtype := .single, shape := [data.length], data := data.map (fun q => .num q) }
  | _ => .error .attributeError

/-- One iteration of the output-marshalling loop of `triton_infer_fn`
(lines 178-199) for the field named `fieldName` whose generate-result value
is `value`, with the result's `sentences` value at hand for the broadcast
shape of the null branch. -/
def convertField (fieldName : String) (value : Option PyVal) (sentencesVal : Option PyVal) :
    Except PyErr NpArray := do
  let blank ← match dictGet fieldName _BLANK_OUTPUTTYPE with
    | some b => Except.ok b
    | none => Except.error PyErr.keyError
  let blankFirst ← pySubscript0 blank
  let field_dtype ← GetNumpyDtype blankFirst
  match value with
  | none => np_full (np_shapeOpt sentencesVal) blankFirst field_dtype
  | some v =>
    if field_dtype = .bytes then cast_output v field_dtype
    else
      match v with
      | .list [] => .error .indexError
      | .list (x :: rest) =>
        match x with
        | .tensor dt _ =>
          if dt = .bfloat16 then do
            let arrays ← (x :: rest).mapM tensorFloatNumpy
            np_stackArrays arrays
          else do
            let arrays ← (x :: rest).mapM (fun entry => cast_output entry field_dtype)
            np_stackArrays arrays
        | _ => np_array v
      | .str [] => .error .indexError
      | .str (_ :: _) => np_array v
      | _ => .error .typeError

/-- The ordered field/value pairs of a generate result, as
`model_output.items()` yields them (the `OutputType` key order, which is
also the `_BLANK_OUTPUTTYPE` key order). -/
def outputItems (o : OutputType) : List (String × Option PyVal) :=
  [("sentences", o.sentences), ("tokens", o.tokens), ("logprob", o.logprob),
   ("full_logprob", o.full_logprob), ("token_ids", o.token_ids), ("offsets", o.offsets)]

/-- The value half of `inputs.pop("prompts")` (line 163): a missing key
raises `KeyError`. -/
def popPrompts (inputs : List (String × NpArray)) : Except PyErr NpArray :=
  match dictGet "prompts" inputs with
  | some a => .ok a
  | none => .error .keyError

/-- The `self.model` attribute access of line 167: an instance whose
`_load` never assigned the attribute raises `AttributeError` here, at the
first use of the model. -/
def getModel (d : MegatronGPTDeployable) : Except PyErr GenFn :=
  match d.model with
  | some g => .ok g
  | none => .error .attributeError

/-- Marshalling stage of `triton_infer_fn` before the model call (lines
163-165): pop and decode `prompts`, then run the two parameter
extractions, each on its own keyword-splat copy of the remaining inputs. -/
def triton_infer_prepare (sd ld : List (String × PyVal)) (inputs : List (String × NpArray)) :
    Except PyErr (List (List Nat) × List (String × ParamVal) × List (String × ParamVal)) := do
  let promptsArr ← popPrompts inputs
  let remaining := dictRemove "prompts" inputs
  let input_strings ← str_ndarray2list promptsArr
  let sampling_params ← _sampling_params_from_triton_inputs sd remaining
  let length_params ← _length_params_from_triton_inputs ld remaining
  .ok (input_strings, sampling_params, length_params)

/-- Source `triton_infer_fn` (lines 161-200), parameterized by the two
default-provider dictionaries: marshal the inputs, call the model's
generate operation (an `AttributeError` when `_load` never set the model
attribute), then convert each field of the structured result into a numpy
array stored under the same field name. -/
def triton_infer_fn (d : MegatronGPTDeployable) (sd ld : List (String × PyVal))
    (inputs : List (String × NpArray)) : Except PyErr (List (String × NpArray)) := do
  let p ← triton_infer_prepare sd ld inputs
  let gen ← getModel d
  let model_output := gen p.1 p.2.2 p.2.1
  (outputItems model_output).mapM fun item =>
    (convertField item.1 item.2 model_output.sentences).map fun arr => (item.1, arr)

/-- Whether a python value is a scalar for the schema shape rule (anything
that is not a list). -/
def isScalarValue : PyVal → Bool
  | .str _ => true
  | .boolean _ => true
  | .float _ => true
  | .int _ => true
  | _ => false

/-- Whether a python value is a list all of whose elements are strings. -/
def isStringList : PyVal → Bool
  | .list l => l.all fun v => match v with | .str _ => true | _ => false
  | _ => false

/-- Whether a python value is a non-empty list of strings. -/
def isNonemptyStringList : PyVal → Bool
  | .list (x :: xs) => (x :: xs).all fun v => match v with | .str _ => true | _ => false
  | _ => false

/-- The descriptor the spec's schema rules promise for one default
parameter entry: shape `(-1,)` for a list value and `(1,)` for a scalar,
dtype by the value-type table (a string list through its first — string —
element), optional. -/
def claimedDescriptor (p : String × PyVal) : Tensor :=
  { name := p.1,
    shape := match p.2 with | .list _ => [-1] | _ => [1],
    dtype := match p.2 with
      | .str _ => .bytes
      | .boolean _ => .bool_
      | .float _ => .single
      | .int _ => .int_
      | _ => .bytes,
    optional := true }

lemma paramDescriptor_ok_of_wellformed (p : String × PyVal)
    (h : isScalarValue p.2 = true ∨ isNonemptyStringList p.2 = true) :
    paramDescriptor p = .ok (claimedDescriptor p) := by
  rcases p with ⟨k, v⟩
  match v with
  | .str s => rfl
  | .boolean b => rfl
  | .float q => rfl
  | .int n => rfl
  | .tensor dt dl => simp [isScalarValue, isNonemptyStringList] at h
  | .list [] => simp [isScalarValue, isNonemptyStringList] at h
  | .list (x :: xs) =>
    rcases h with h | h
    · simp [isScalarValue] at h
    · simp only [isNonemptyStringList, List.all_cons, Bool.and_eq_true] at h
      match x, h.1 with
      | .str s, _ => rfl

lemma mapM_paramDescriptor_ok (defaults : List (String × PyVal))
    (h : ∀ p ∈ defaults, isScalarValue p.2 = true ∨ isNonemptyStringList p.2 = true) :
    defaults.mapM paramDescriptor = .ok (defaults.map claimedDescriptor) := by
  induction defaults with
  | nil => rfl
  | cons p rest ih =>
    rw [List.mapM_cons, paramDescriptor_ok_of_wellformed p (h p (by simp)),
      ih fun q hq => h q (by simp [hq])]
    rfl

/-- Claim C5: `GetNumpyDtype` maps a string to the byte-string dtype, a
boolean to `np.bool_`, a float to `np.single` and an integer to `np.int_`,
and for a non-empty list derives the dtype from the list's first element by
the same `py_to_numpy_mapping` table. -/
theorem claim_C5_dtype_mapping (s : List Nat) (b : Bool) (q : Rat) (n : Int)
    (x : PyVal) (l : List PyVal) :
    GetNumpyDtype (.str s) = .ok .bytes ∧
    GetNumpyDtype (.boolean b) = .ok .bool_ ∧
    GetNumpyDtype (.float q) = .ok .single ∧
    GetNumpyDtype (.int n) = .ok .int_ ∧
    GetNumpyDtype (.list (x :: l)) = py_to_numpy_mapping x :=
  ⟨rfl, rfl, rfl, rfl, rfl⟩

/-- Claim C6: on an empty list `GetNumpyDtype` raises `IndexError` — a
subclass of python's `LookupError` — and the derivation entry points that
reach it (here `get_triton_input` over a default dictionary holding an
empty-list value, on either dictionary) propagate it uncaught. -/
theorem claim_C6_empty_list_lookup_error :
    GetNumpyDtype (.list []) = .error .indexError ∧
    PyErr.isLookupError .indexError = true ∧
    get_triton_input [("end_strings", PyVal.list [])] [] = .error .indexError ∧
    get_triton_input [] [("stop_list", PyVal.list [])] = .error .indexError := by
  refine ⟨rfl, rfl, ?_, ?_⟩ <;> rfl

/-- Claim C4 as stated is false: the empty list is a string-list value
(all of its elements are strings), yet schema derivation over a default
dictionary containing it throws an `IndexError` instead of producing
descriptors. -/
theorem claim_C4_counterexample :
    isStringList (PyVal.list []) = true ∧
    get_triton_input [("end_strings", PyVal.list [])] [] = .error .indexError :=
  ⟨rfl, rfl⟩

/-- Claim C4 (amended: string-list values must be non-empty): for default
dictionaries whose values are scalars or non-empty string lists,
`get_triton_input` never throws and returns exactly the required
variable-length `prompts` descriptor followed by one optional descriptor
per sampling key and one per length key, shaped `(1,)` for scalar defaults
and `(-1,)` for list defaults. -/
theorem claim_C4_input_schema (sd ld : List (String × PyVal))
    (h : ∀ p ∈ sd ++ ld, isScalarValue p.2 = true ∨ isNonemptyStringList p.2 = true) :
    get_triton_input sd ld =
      .ok (promptsDescriptor :: (sd.map claimedDescriptor ++ ld.map claimedDescriptor)) := by
  have hsd : sd.mapM paramDescriptor = .ok (sd.map claimedDescriptor) :=
    mapM_paramDescriptor_ok sd fun p hp => h p (List.mem_append_left _ hp)
  have hld : ld.mapM paramDescriptor = .ok (ld.map claimedDescriptor) :=
    mapM_paramDescriptor_ok ld fun p hp => h p (List.mem_append_right _ hp)
  unfold get_triton_input
  rw [hsd, hld]
  rfl

/-- A plausible sampling-parameter default dictionary (the providers are
external; witnesses only need some concrete well-formed instance). -/
def sampleSamplingDefaults : List (String × PyVal) :=
  [("use_greedy", .boolean false), ("temperature", .float 1), ("top_k", .int 0),
   ("top_p", .float (9 / 10)), ("repetition_penalty", .float (12 / 10)),
   ("add_BOS", .boolean true), ("all_probs", .boolean false),
   ("compute_logprob", .boolean false), ("end_strings", .list [.str [60, 101, 62]])]

/-- A plausible length-parameter default dictionary. -/
def sampleLengthDefaults : List (String × PyVal) :=
  [("max_length", .int 30), ("min_length", .int 0)]

/-- Witness for claim C4's theorem at the sample default dictionaries. -/
theorem claim_C4_input_schema_witness :
    get_triton_input sampleSamplingDefaults sampleLengthDefaults =
      .ok (promptsDescriptor ::
        (sampleSamplingDefaults.map claimedDescriptor ++
          sampleLengthDefaults.map claimedDescriptor)) :=
  claim_C4_input_schema sampleSamplingDefaults sampleLengthDefaults (by decide)


lemma dictGet_eq_none_of_not_mem {α : Type} (k : String) (l : List (String × α))
    (h : k ∉ l.map Prod.fst) : dictGet k l = none := by
  induction l with
  | nil => rfl
  | cons p rest ih =>
    rcases p with ⟨a, b⟩
    simp only [List.map_cons, List.mem_cons] at h
    push_neg at h
    have ha : a ≠ k := fun hc => h.1 hc.symm
    simp [dictGet, ha, ih h.2]

lemma dictGet_dictRemove_ne {α : Type} (k k' : String) (h : k ≠ k')
    (l : List (String × α)) : dictGet k (dictRemove k' l) = dictGet k l := by
  induction l with
  | nil => rfl
  | cons p rest ih =>
    rcases p with ⟨a, b⟩
    by_cases ha : a = k'
    · subst ha
      simp [dictRemove, dictGet, Ne.symm h]
    · by_cases hak : a = k
      · subst hak
        simp [dictRemove, dictGet, ha]
      · simp [dictRemove, dictGet, ha, hak, ih]

lemma dictGet_dictRemove_self {α : Type} (k : String) (l : List (String × α))
    (h : (l.map Prod.fst).Nodup) : dictGet k (dictRemove k l) = none := by
  induction l with
  | nil => rfl
  | cons p rest ih =>
    rcases p with ⟨a, b⟩
    simp only [List.map_cons, List.nodup_cons] at h
    by_cases ha : a = k
    · subst ha
      simpa [dictRemove] using dictGet_eq_none_of_not_mem a rest h.1
    · simp [dictRemove, dictGet, ha, ih h.2]

lemma dictRemove_sublist {α : Type} (k : String) (l : List (String × α)) :
    List.Sublist (dictRemove k l) l := by
  induction l with
  | nil => exact List.Sublist.refl _
  | cons p rest ih =>
    rcases p with ⟨a, b⟩
    by_cases ha : a = k
    · simp only [dictRemove, if_pos ha]
      exact List.sublist_cons_self _ _
    · simp only [dictRemove, if_neg ha]
      exact ih.cons₂ (a, b)

lemma nodup_keys_dictRemove {α : Type} (k : String) (l : List (String × α))
    (h : (l.map Prod.fst).Nodup) : ((dictRemove k l).map Prod.fst).Nodup :=
  ((dictRemove_sublist k l).map Prod.fst).nodup h

/-- Full behaviour of the extraction loop: it succeeds whenever every
recognized tensor present in the batch has a `[0][0]` element, the result
dictionary has exactly the default keys in order, keys present in the batch
are overridden with the tensor's first element while absent ones keep their
default, and the residual (local) inputs dict has lost exactly the
recognized present keys. -/
lemma paramsFromTritonInputs_spec (defaults : List (String × PyVal))
    (inputs : List (String × NpArray))
    (hnodup : (defaults.map Prod.fst).Nodup)
    (hinodup : (inputs.map Prod.fst).Nodup)
    (hwf : ∀ k a, dictGet k defaults ≠ none → dictGet k inputs = some a →
      ∃ x, ndarray_first00 a = .ok x) :
    ∃ ps residual, paramsFromTritonInputs defaults inputs = .ok (ps, residual) ∧
      ps.map Prod.fst = defaults.map Prod.fst ∧
      (∀ k dv, dictGet k defaults = some dv →
        (dictGet k inputs = none → dictGet k ps = some (.default dv)) ∧
        (∀ a x, dictGet k inputs = some a → ndarray_first00 a = .ok x →
          dictGet k ps = some (.fromTensor x))) ∧
      (∀ k, dictGet k defaults = none → dictGet k residual = dictGet k inputs) ∧
      (∀ k, dictGet k defaults ≠ none → dictGet k residual = none) := by
  induction defaults generalizing inputs with
  | nil =>
    refine ⟨[], inputs, rfl, rfl, ?_, ?_, ?_⟩
    · intro k dv h
      simp [dictGet] at h
    · intro k _
      rfl
    · intro k h
      exact absurd rfl h
  | cons p rest ih =>
    rcases p with ⟨k0, dv0⟩
    simp only [List.map_cons, List.nodup_cons] at hnodup
    have hk0rest : dictGet k0 rest = none :=
      dictGet_eq_none_of_not_mem k0 rest hnodup.1
    rcases hi : dictGet k0 inputs with _ | arr
    · -- k0 absent from the batch: keep the default
      have hwf' : ∀ k a, dictGet k rest ≠ none → dictGet k inputs = some a →
          ∃ x, ndarray_first00 a = .ok x := by
        intro k a hk ha
        refine hwf k a ?_ ha
        simp only [dictGet]
        by_cases h0 : k0 = k <;> simp [h0, hk]
      obtain ⟨ps', res', hrec, hfst, hpt, hres1, hres2⟩ := ih inputs hnodup.2 hinodup hwf'
      refine ⟨(k0, .default dv0) :: ps', res', ?_, ?_, ?_, ?_, ?_⟩
      · simp [paramsFromTritonInputs, hi, hrec, Except.map]
      · simp [hfst]
      · intro k dv hk
        simp only [dictGet] at hk
        by_cases h0 : k0 = k
        · subst h0
          rw [if_pos rfl] at hk
          injection hk with hk
          subst hk
          constructor
          · intro _
            simp [dictGet]
          · intro a x ha hx
            rw [ha] at hi
            exact absurd hi (by simp)
        · rw [if_neg h0] at hk
          obtain ⟨h1, h2⟩ := hpt k dv hk
          constructor
          · intro hnone
            simpa [dictGet, h0] using h1 hnone
          · intro a x ha hx
            simpa [dictGet, h0] using h2 a x ha hx
      · intro k hk
        simp only [dictGet] at hk
        by_cases h0 : k0 = k
        · rw [if_pos h0] at hk
          exact absurd hk (by simp)
        · rw [if_neg h0] at hk
          exact hres1 k hk
      · intro k hk
        simp only [dictGet] at hk
        by_cases h0 : k0 = k
        · subst h0
          by_cases hr : dictGet k0 rest = none
          · rw [hres1 k0 hr]
            exact hi
          · exact hres2 k0 hr
        · rw [if_neg h0] at hk
          exact hres2 k hk
    · -- k0 present: pop it from the local copy and override the default
      obtain ⟨x, hx⟩ := hwf k0 arr (by simp [dictGet]) hi
      have hwf' : ∀ k a, dictGet k rest ≠ none →
          dictGet k (dictRemove k0 inputs) = some a → ∃ x, ndarray_first00 a = .ok x := by
        intro k a hk ha
        have hne : k ≠ k0 := by
          intro hc
          subst hc
          exact hk hk0rest
        rw [dictGet_dictRemove_ne k k0 hne] at ha
        refine hwf k a ?_ ha
        simp only [dictGet]
        by_cases h0 : k0 = k <;> simp [h0, hk]
      obtain ⟨ps', res', hrec, hfst, hpt, hres1, hres2⟩ :=
        ih (dictRemove k0 inputs) hnodup.2 (nodup_keys_dictRemove k0 inputs hinodup) hwf'
      refine ⟨(k0, .fromTensor x) :: ps', res', ?_, ?_, ?_, ?_, ?_⟩
      · simp only [paramsFromTritonInputs, hi]
        rw [hx, hrec]
        rfl
      · simp [hfst]
      · intro k dv hk
        simp only [dictGet] at hk
        by_cases h0 : k0 = k
        · subst h0
          constructor
          · intro hnone
            rw [hnone] at hi
            exact absurd hi (by simp)
          · intro a x' ha hx'
            rw [ha] at hi
            injection hi with hi
            subst hi
            rw [hx] at hx'
            injection hx' with hx'
            subst hx'
            simp [dictGet]
        · rw [if_neg h0] at hk
          have hne : k ≠ k0 := fun hc => h0 hc.symm
          obtain ⟨h1, h2⟩ := hpt k dv hk
          constructor
          · intro hnone
            have hrm : dictGet k (dictRemove k0 inputs) = none := by
              rw [dictGet_dictRemove_ne k k0 hne, hnone]
            simpa [dictGet, h0] using h1 hrm
          · intro a x' ha hx'
            have hrm : dictGet k (dictRemove k0 inputs) = some a := by
              rw [dictGet_dictRemove_ne k k0 hne, ha]
            simpa [dictGet, h0] using h2 a x' hrm hx'
      · intro k hk
        simp only [dictGet] at hk
        by_cases h0 : k0 = k
        · rw [if_pos h0] at hk
          exact absurd hk (by simp)
        · rw [if_neg h0] at hk
          have hne : k ≠ k0 := fun hc => h0 hc.symm
          rw [hres1 k hk, dictGet_dictRemove_ne k k0 hne]
      · intro k hk
        simp only [dictGet] at hk
        by_cases h0 : k0 = k
        · subst h0
          by_cases hr : dictGet k0 rest = none
          · rw [hres1 k0 hr]
            exact dictGet_dictRemove_self k0 inputs hinodup
          · exact hres2 k0 hr
        · rw [if_neg h0] at hk
          exact hres2 k hk

/-- Extraction commutes with dropping an unrecognized batch key: an input
entry whose name is not a default-parameter key changes nothing except
surviving into the residual local dict. -/
lemma paramsFromTritonInputs_extra_key (defaults : List (String × PyVal))
    (k' : String) (a' : NpArray) (inputs : List (String × NpArray))
    (h : dictGet k' defaults = none) :
    paramsFromTritonInputs defaults ((k', a') :: inputs) =
      (paramsFromTritonInputs defaults inputs).map fun p => (p.1, (k', a') :: p.2) := by
  induction defaults generalizing inputs with
  | nil => rfl
  | cons p rest ih =>
    rcases p with ⟨k0, dv0⟩
    simp only [dictGet] at h
    by_cases h0 : k0 = k'
    · rw [if_pos h0] at h
      exact absurd h (by simp)
    · rw [if_neg h0] at h
      have hne : k' ≠ k0 := fun hc => h0 hc.symm
      have hget : dictGet k0 ((k', a') :: inputs) = dictGet k0 inputs := by
        simp [dictGet, hne]
      rcases hi : dictGet k0 inputs with _ | arr
      · simp only [paramsFromTritonInputs, hget, hi, ih inputs h]
        cases hP : paramsFromTritonInputs rest inputs with
        | error e => rfl
        | ok pr => rfl
      · have hrem : dictRemove k0 ((k', a') :: inputs) = (k', a') :: dictRemove k0 inputs := by
          simp [dictRemove, hne]
        simp only [paramsFromTritonInputs, hget, hi, hrem, ih (dictRemove k0 inputs) h]
        cases hE : ndarray_first00 arr with
        | error e => rfl
        | ok x =>
          cases hP : paramsFromTritonInputs rest (dictRemove k0 inputs) with
          | error e => rfl
          | ok pr => rfl

/-- Claim C2: for every request batch, both parameter-extraction helpers
return the provider's default dictionary with exactly the batch-present
keys overridden — each overridden key set to the batch-global `[0][0]`
element of its tensor — while absent keys keep their defaults, and batch
keys that are not recognized parameter names are silently ignored. -/
theorem claim_C2_param_extraction (defaults : List (String × PyVal))
    (inputs : List (String × NpArray))
    (hnodup : (defaults.map Prod.fst).Nodup)
    (hinodup : (inputs.map Prod.fst).Nodup)
    (hwf : ∀ k a, dictGet k defaults ≠ none → dictGet k inputs = some a →
      ∃ x, ndarray_first00 a = .ok x) :
    ∃ ps, _sampling_params_from_triton_inputs defaults inputs = .ok ps ∧
      _length_params_from_triton_inputs defaults inputs = .ok ps ∧
      ps.map Prod.fst = defaults.map Prod.fst ∧
      (∀ k dv, dictGet k defaults = some dv →
        (dictGet k inputs = none → dictGet k ps = some (.default dv)) ∧
        (∀ a x, dictGet k inputs = some a → ndarray_first00 a = .ok x →
          dictGet k ps = some (.fromTensor x))) ∧
      (∀ k' a', dictGet k' defaults = none →
        _sampling_params_from_triton_inputs defaults ((k', a') :: inputs) =
          _sampling_params_from_triton_inputs defaults inputs) := by
  obtain ⟨ps, residual, hrec, hfst, hpt, _, _⟩ :=
    paramsFromTritonInputs_spec defaults inputs hnodup hinodup hwf
  refine ⟨ps, ?_, ?_, hfst, hpt, ?_⟩
  · simp only [_sampling_params_from_triton_inputs]
    rw [hrec]
    rfl
  · simp only [_length_params_from_triton_inputs]
    rw [hrec]
    rfl
  · intro k' a' hk'
    simp only [_sampling_params_from_triton_inputs,
      paramsFromTritonInputs_extra_key defaults k' a' inputs hk']
    cases hX : paramsFromTritonInputs defaults inputs with
    | error e => rfl
    | ok pr => rfl

/-- A concrete batch for the extraction witnesses: two prompts, a
`temperature` override whose tensor is `[[0.7], [0.3]]`, and an
unrecognized `junk` key. -/
def sampleBatchInputs : List (String × NpArray) :=
  [("temperature", { dtype := .single, shape := [2, 1], data := [.num (7 / 10), .num (3 / 10)] }),
   ("junk", { dtype := .single, shape := [2, 1], data := [.num 0, .num 0] })]

/-- Witness for claim C2's theorem: at the sample defaults and batch, the
`temperature` key is overridden by the first row's element `0.7` and
`max_length` (absent from the batch) keeps its default. -/
theorem claim_C2_param_extraction_witness :
    ∃ ps, _sampling_params_from_triton_inputs sampleSamplingDefaults sampleBatchInputs = .ok ps ∧
      dictGet "temperature" ps = some (.fromTensor (.num (7 / 10))) ∧
      dictGet "top_k" ps = some (.default (.int 0)) := by
  obtain ⟨ps, hs, _, _, hpt, _⟩ :=
    claim_C2_param_extraction sampleSamplingDefaults sampleBatchInputs
      (by decide) (by decide)
      (by
        intro k a hk ha
        simp only [sampleBatchInputs, dictGet] at ha
        by_cases h1 : "temperature" = k
        · rw [if_pos h1] at ha
          injection ha with ha
          subst ha
          exact ⟨.num (7 / 10), rfl⟩
        · rw [if_neg h1] at ha
          by_cases h2 : "junk" = k
          · subst h2
            exact absurd (rfl : dictGet "junk" sampleSamplingDefaults = none) hk
          · rw [if_neg h2] at ha
            exact absurd ha (by simp))
  refine ⟨ps, hs, ?_, ?_⟩
  · exact (hpt "temperature" (.float 1) rfl).2 _ _ rfl rfl
  · exact (hpt "top_k" (.int 0) rfl).1 rfl

lemma except_bind_ok {γ δ : Type} {e : Except PyErr γ} {f : γ → Except PyErr δ} {b : δ}
    (h : (e >>= f) = .ok b) : ∃ a, e = .ok a ∧ f a = .ok b := by
  cases e with
  | error err => exact absurd h (by simp [Bind.bind, Except.bind])
  | ok a => exact ⟨a, rfl, by simpa [Bind.bind, Except.bind] using h⟩

lemma except_map_ok {γ δ : Type} {e : Except PyErr γ} {f : γ → δ} {b : δ}
    (h : e.map f = .ok b) : ∃ a, e = .ok a ∧ f a = b := by
  cases e with
  | error err => exact absurd h (by simp [Except.map])
  | ok a =>
    refine ⟨a, rfl, ?_⟩
    simpa [Except.map] using h

lemma dictGet_ne_none_of_mem {α : Type} (k : String) (l : List (String × α))
    (h : k ∈ l.map Prod.fst) : dictGet k l ≠ none := by
  induction l with
  | nil => simp at h
  | cons p rest ih =>
    rcases p with ⟨a, b⟩
    by_cases ha : a = k
    · simp [dictGet, ha]
    · simp only [List.map_cons, List.mem_cons] at h
      rcases h with h | h
      · exact absurd h.symm ha
      · simp [dictGet, ha, ih h]

lemma dictGet_eq_none_of_sublist {α : Type} (k : String) {r l : List (String × α)}
    (hs : List.Sublist r l) (h : dictGet k l = none) : dictGet k r = none := by
  by_contra hr
  have hmem : k ∈ r.map Prod.fst := by
    by_contra hm
    exact hr (dictGet_eq_none_of_not_mem k r hm)
  exact dictGet_ne_none_of_mem k l ((hs.map Prod.fst).subset hmem) h


/-- A successful extraction run only ever removes entries from its local
inputs dict: the residual is a sublist of the inputs it was given. -/
lemma paramsFromTritonInputs_residual_sublist (defaults : List (String × PyVal)) :
    ∀ (inputs : List (String × NpArray)) ps residual,
      paramsFromTritonInputs defaults inputs = .ok (ps, residual) →
      List.Sublist residual inputs := by
  induction defaults with
  | nil =>
    intro inputs ps residual h
    simp only [paramsFromTritonInputs, Except.ok.injEq, Prod.mk.injEq] at h
    rw [← h.2]
  | cons p rest ih =>
    intro inputs ps residual h
    rcases p with ⟨k0, dv0⟩
    simp only [paramsFromTritonInputs] at h
    rcases hi : dictGet k0 inputs with _ | arr
    · rw [hi] at h
      obtain ⟨pr, hP, hf⟩ := except_map_ok h
      injection hf with h1 h2
      subst h2
      exact ih inputs pr.1 pr.2 (by rw [hP])
    · rw [hi] at h
      obtain ⟨x, hx, h2⟩ := except_bind_ok h
      obtain ⟨pr, hP, h3⟩ := except_bind_ok h2
      injection h3 with h3
      injection h3 with h31 h32
      subst h32
      exact (ih (dictRemove k0 inputs) pr.1 pr.2 (by rw [hP])).trans
        (dictRemove_sublist k0 inputs)

/-- After a successful extraction run the local inputs dict has lost every
recognized key (the pops emptied them from the copy). -/
lemma paramsFromTritonInputs_residual_none (defaults : List (String × PyVal)) :
    ∀ (inputs : List (String × NpArray)) ps residual,
      (inputs.map Prod.fst).Nodup →
      paramsFromTritonInputs defaults inputs = .ok (ps, residual) →
      ∀ k, dictGet k defaults ≠ none → dictGet k residual = none := by
  induction defaults with
  | nil =>
    intro inputs ps residual _ h k hk
    exact absurd rfl hk
  | cons p rest ih =>
    intro inputs ps residual hinodup h k hk
    rcases p with ⟨k0, dv0⟩
    simp only [paramsFromTritonInputs] at h
    rcases hi : dictGet k0 inputs with _ | arr
    · rw [hi] at h
      obtain ⟨pr, hP, hf⟩ := except_map_ok h
      injection hf with h1 h2
      subst h2
      by_cases h0 : k0 = k
      · subst h0
        exact dictGet_eq_none_of_sublist k0
          (paramsFromTritonInputs_residual_sublist rest inputs pr.1 pr.2 (by rw [hP])) hi
      · refine ih inputs pr.1 pr.2 hinodup (by rw [hP]) k ?_
        simp only [dictGet] at hk
        rwa [if_neg h0] at hk
    · rw [hi] at h
      obtain ⟨x, hx, h2⟩ := except_bind_ok h
      obtain ⟨pr, hP, h3⟩ := except_bind_ok h2
      injection h3 with h3
      injection h3 with h31 h32
      subst h32
      by_cases h0 : k0 = k
      · subst h0
        exact dictGet_eq_none_of_sublist k0
          (paramsFromTritonInputs_residual_sublist rest (dictRemove k0 inputs) pr.1 pr.2
            (by rw [hP]))
          (dictGet_dictRemove_self k0 inputs hinodup)
      · refine ih (dictRemove k0 inputs) pr.1 pr.2
          (nodup_keys_dictRemove k0 inputs hinodup) (by rw [hP]) k ?_
        simp only [dictGet] at hk
        rwa [if_neg h0] at hk

/-- In a successful extraction run every recognized key present in the
inputs ends up overridden by its tensor's `[0][0]` element. -/
lemma paramsFromTritonInputs_override (defaults : List (String × PyVal)) :
    ∀ (inputs : List (String × NpArray)) ps residual,
      paramsFromTritonInputs defaults inputs = .ok (ps, residual) →
      ∀ k dv a x, dictGet k defaults = some dv → dictGet k inputs = some a →
        ndarray_first00 a = .ok x → dictGet k ps = some (.fromTensor x) := by
  induction defaults with
  | nil =>
    intro inputs ps residual h k dv a x hk _ _
    simp [dictGet] at hk
  | cons p rest ih =>
    intro inputs ps residual h k dv a x hk ha hx
    rcases p with ⟨k0, dv0⟩
    simp only [paramsFromTritonInputs] at h
    rcases hi : dictGet k0 inputs with _ | arr
    · rw [hi] at h
      obtain ⟨pr, hP, hf⟩ := except_map_ok h
      injection hf with h1 h2
      rw [← h1]
      by_cases h0 : k0 = k
      · subst h0
        rw [ha] at hi
        exact absurd hi (by simp)
      · simp only [dictGet, if_neg h0]
        refine ih inputs pr.1 pr.2 (by rw [hP]) k dv a x ?_ ha hx
        simp only [dictGet] at hk
        rwa [if_neg h0] at hk
    · rw [hi] at h
      obtain ⟨x0, hx0, h2⟩ := except_bind_ok h
      obtain ⟨pr, hP, h3⟩ := except_bind_ok h2
      injection h3 with h3
      injection h3 with h31 h32
      rw [← h31]
      by_cases h0 : k0 = k
      · subst h0
        rw [ha] at hi
        injection hi with hi
        subst hi
        rw [hx0] at hx
        injection hx with hx
        subst hx
        simp [dictGet]
      · have hne : k ≠ k0 := fun hc => h0 hc.symm
        simp only [dictGet, if_neg h0]
        refine ih (dictRemove k0 inputs) pr.1 pr.2 (by rw [hP]) k dv a x ?_ ?_ hx
        · simp only [dictGet] at hk
          rwa [if_neg h0] at hk
        · rwa [dictGet_dictRemove_ne k k0 hne]

/-- Claim C10: the extraction helpers work on keyword-splat copies of the
caller's input mapping.  Inside the marshalling stage of `triton_infer_fn`,
a successful run means: the length extraction is the one computed from the
full non-prompt input mapping; the sampling extraction's pops did empty
every recognized present key from its own local copy (its residual); and
yet a key recognized by both dictionaries and present in the batch is
overridden in both results, because the pops never reached the caller's
mapping. -/
theorem claim_C10_kwargs_copy (sd ld : List (String × PyVal))
    (inputs : List (String × NpArray)) (ss : List (List Nat))
    (sp lp : List (String × ParamVal))
    (hinodup : (inputs.map Prod.fst).Nodup)
    (h : triton_infer_prepare sd ld inputs = .ok (ss, sp, lp)) :
    _length_params_from_triton_inputs ld (dictRemove "prompts" inputs) = .ok lp ∧
    (∀ ps residual,
      paramsFromTritonInputs sd (dictRemove "prompts" inputs) = .ok (ps, residual) →
      ∀ k, dictGet k sd ≠ none → dictGet k residual = none) ∧
    (∀ k dv dv2 a x, dictGet k sd = some dv → dictGet k ld = some dv2 →
      dictGet k (dictRemove "prompts" inputs) = some a → ndarray_first00 a = .ok x →
      dictGet k sp = some (.fromTensor x) ∧ dictGet k lp = some (.fromTensor x)) := by
  unfold triton_infer_prepare at h
  obtain ⟨pa, hpa, h⟩ := except_bind_ok h
  obtain ⟨ss', hss, h⟩ := except_bind_ok h
  obtain ⟨sp', hsp, h⟩ := except_bind_ok h
  obtain ⟨lp', hlp, h⟩ := except_bind_ok h
  injection h with h
  injection h with he1 h
  injection h with he2 he3
  subst he2
  subst he3
  refine ⟨hlp, ?_, ?_⟩
  · intro ps residual hP k hk
    exact paramsFromTritonInputs_residual_none sd (dictRemove "prompts" inputs) ps residual
      (nodup_keys_dictRemove "prompts" inputs hinodup) hP k hk
  · intro k dv dv2 a x hks hkl ha hx
    constructor
    · simp only [_sampling_params_from_triton_inputs] at hsp
      obtain ⟨pr, hP, hf⟩ := except_map_ok hsp
      rw [← hf]
      exact paramsFromTritonInputs_override sd (dictRemove "prompts" inputs) pr.1 pr.2
        (by rw [hP]) k dv a x hks ha hx
    · simp only [_length_params_from_triton_inputs] at hlp
      obtain ⟨pr, hP, hf⟩ := except_map_ok hlp
      rw [← hf]
      exact paramsFromTritonInputs_override ld (dictRemove "prompts" inputs) pr.1 pr.2
        (by rw [hP]) k dv2 a x hkl ha hx


/-- A request batch whose `temperature` tensor is recognized by both sample
dictionaries of the witness below. -/
def sharedKeyInputs : List (String × NpArray) :=
  [("prompts", { dtype := .bytes, shape := [1, 1], data := [.bytes [72]] }),
   ("temperature", { dtype := .single, shape := [1, 1], data := [.num (7 / 10)] })]

/-- Witness for claim C10's theorem: with `temperature` recognized by both
default dictionaries, both extraction results override it even though the
sampling extraction popped it from its local copy. -/
theorem claim_C10_kwargs_copy_witness :
    _length_params_from_triton_inputs [("temperature", PyVal.float 2)]
        (dictRemove "prompts" sharedKeyInputs) =
      .ok [("temperature", ParamVal.fromTensor (.num (7 / 10)))] ∧
    (∀ ps residual,
      paramsFromTritonInputs [("temperature", PyVal.float 1)]
          (dictRemove "prompts" sharedKeyInputs) = .ok (ps, residual) →
      ∀ k, dictGet k [("temperature", PyVal.float 1)] ≠ none →
        dictGet k residual = none) ∧
    (∀ k dv dv2 a x, dictGet k [("temperature", PyVal.float 1)] = some dv →
      dictGet k [("temperature", PyVal.float 2)] = some dv2 →
      dictGet k (dictRemove "prompts" sharedKeyInputs) = some a →
      ndarray_first00 a = .ok x →
      dictGet k [("temperature", ParamVal.fromTensor (.num (7 / 10)))] =
          some (.fromTensor x) ∧
        dictGet k [("temperature", ParamVal.fromTensor (.num (7 / 10)))] =
          some (.fromTensor x)) :=
  claim_C10_kwargs_copy [("temperature", PyVal.float 1)] [("temperature", PyVal.float 2)]
    sharedKeyInputs [[72]]
    [("temperature", ParamVal.fromTensor (.num (7 / 10)))]
    [("temperature", ParamVal.fromTensor (.num (7 / 10)))]
    (by decide) rfl

lemma np_shapeRows_str (ss : List (List Nat)) :
    np_shapeRows (ss.map PyVal.str) = [] := by
  cases ss with
  | nil => rfl
  | cons s rest =>
    simp only [List.map_cons, np_shapeRows]
    cases h : np_shapeAll (rest.map PyVal.str) (np_shape (.str s)) <;> simp [np_shape]

/-- numpy shape of a python list of strings: one dimension holding the
list's length (strings are scalars for `np.shape`). -/
lemma np_shape_strList (ss : List (List Nat)) :
    np_shape (.list (ss.map PyVal.str)) = [ss.length] := by
  simp [np_shape, np_shapeRows_str]

/-- The dtype the output schema assigns to each field (text fields are
byte-strings, log-probabilities single-precision floats, ids and offsets
native integers). -/
def claimedFieldDtype : String → NumpyDtype
  | "sentences" => .bytes
  | "tokens" => .bytes
  | "logprob" => .single
  | "full_logprob" => .single
  | _ => .int_

/-- The broadcast default element of each output field: the empty byte
string for the text fields, zero for the numeric fields. -/
def claimedFieldFill : String → NpLit
  | "sentences" => .bytes []
  | "tokens" => .bytes []
  | _ => .num 0

/-- Claim C3: a field whose generate-result value is null is filled with an
array of the field's default placeholder value (0.0 for `full_logprob`),
with shape equal to the shape of the result's `sentences` list, cast to the
field's schema dtype. -/
theorem claim_C3_null_field_broadcast (fieldName : String) (sentences : List (List Nat))
    (h : fieldName ∈ ["sentences", "tokens", "logprob", "full_logprob", "token_ids", "offsets"]) :
    convertField fieldName none (some (.list (sentences.map PyVal.str))) =
      .ok { dtype := claimedFieldDtype fieldName,
            shape := [sentences.length],
            data := List.replicate sentences.length (claimedFieldFill fieldName) } := by
  have hs : np_shapeOpt (some (.list (sentences.map PyVal.str))) = [sentences.length] := by
    simp [np_shapeOpt, np_shape_strList]
  fin_cases h
  · show convertField "sentences" none (some (.list (sentences.map PyVal.str))) = _
    have h1 : convertField "sentences" none (some (.list (sentences.map PyVal.str))) =
        np_full (np_shapeOpt (some (.list (sentences.map PyVal.str)))) (.str []) .bytes := rfl
    have h2 : np_full [sentences.length] (PyVal.str []) .bytes =
        .ok { dtype := .bytes, shape := [sentences.length],
              data := List.replicate (sentences.length * 1) (.bytes []) } := rfl
    rw [h1, hs, h2, mul_one]
    rfl
  · show convertField "tokens" none (some (.list (sentences.map PyVal.str))) = _
    have h1 : convertField "tokens" none (some (.list (sentences.map PyVal.str))) =
        np_full (np_shapeOpt (some (.list (sentences.map PyVal.str))))
          (.list [.str []]) .bytes := rfl
    have h2 : np_full [sentences.length] (PyVal.list [.str []]) .bytes =
        .ok { dtype := .bytes, shape := [sentences.length],
              data := List.replicate (sentences.length * 1) (.bytes []) } := rfl
    rw [h1, hs, h2, mul_one]
    rfl
  · show convertField "logprob" none (some (.list (sentences.map PyVal.str))) = _
    have h1 : convertField "logprob" none (some (.list (sentences.map PyVal.str))) =
        np_full (np_shapeOpt (some (.list (sentences.map PyVal.str))))
          (.list [.float 0]) .single := rfl
    have h2 : np_full [sentences.length] (PyVal.list [.float 0]) .single =
        .ok { dtype := .single, shape := [sentences.length],
              data := List.replicate (sentences.length * 1) (.num 0) } := rfl
    rw [h1, hs, h2, mul_one]
    rfl
  · show convertField "full_logprob" none (some (.list (sentences.map PyVal.str))) = _
    have h1 : convertField "full_logprob" none (some (.list (sentences.map PyVal.str))) =
        np_full (np_shapeOpt (some (.list (sentences.map PyVal.str))))
          (.list [.float 0]) .single := rfl
    have h2 : np_full [sentences.length] (PyVal.list [.float 0]) .single =
        .ok { dtype := .single, shape := [sentences.length],
              data := List.replicate (sentences.length * 1) (.num 0) } := rfl
    rw [h1, hs, h2, mul_one]
    rfl
  · show convertField "token_ids" none (some (.list (sentences.map PyVal.str))) = _
    have h1 : convertField "token_ids" none (some (.list (sentences.map PyVal.str))) =
        np_full (np_shapeOpt (some (.list (sentences.map PyVal.str))))
          (.list [.int 0]) .int_ := rfl
    have h2 : np_full [sentences.length] (PyVal.list [.int 0]) .int_ =
        .ok { dtype := .int_, shape := [sentences.length],
              data := List.replicate (sentences.length * 1) (.num 0) } := rfl
    rw [h1, hs, h2, mul_one]
    rfl
  · show convertField "offsets" none (some (.list (sentences.map PyVal.str))) = _
    have h1 : convertField "offsets" none (some (.list (sentences.map PyVal.str))) =
        np_full (np_shapeOpt (some (.list (sentences.map PyVal.str))))
          (.list [.int 0]) .int_ := rfl
    have h2 : np_full [sentences.length] (PyVal.list [.int 0]) .int_ =
        .ok { dtype := .int_, shape := [sentences.length],
              data := List.replicate (sentences.length * 1) (.num 0) } := rfl
    rw [h1, hs, h2, mul_one]
    rfl

/-- Witness for claim C3's theorem: a model result with two sentences and a
null `full_logprob` yields a two-element single-precision zero array. -/
theorem claim_C3_null_field_broadcast_witness :
    convertField "full_logprob" none (some (.list ([[72], [105]].map PyVal.str))) =
      .ok { dtype := claimedFieldDtype "full_logprob",
            shape := [([[72], [105]] : List (List Nat)).length],
            data := List.replicate ([[72], [105]] : List (List Nat)).length
              (claimedFieldFill "full_logprob") } :=
  claim_C3_null_field_broadcast "full_logprob" [[72], [105]] (by decide)

/-- Feeding the UTF-8 encoding of one valid codepoint into the decoding
state machine appends that codepoint to the clean state. -/
lemma foldl_utf8Step_encodeChar (c : Nat) (h : ValidCodepoint c) (acc bs : List Nat) :
    List.foldl utf8Step (.clean acc) (utf8EncodeChar c ++ bs) =
      List.foldl utf8Step (.clean (acc ++ [c])) bs := by
  obtain ⟨hlt, hsur⟩ := h
  by_cases h1 : c < 0x80
  · have henc : utf8EncodeChar c = [c] := by simp [utf8EncodeChar, if_pos h1]
    rw [henc]
    simp only [List.cons_append, List.nil_append, List.foldl_cons, utf8Step, if_pos h1]
  · by_cases h2 : c < 0x800
    · have henc : utf8EncodeChar c = [0xC0 + c / 64, 0x80 + c % 64] := by
        simp [utf8EncodeChar, h1, h2]
      have e1 : ¬ (0xC0 + c / 64 < 0x80) := by omega
      have e2 : ¬ (0xC0 + c / 64 < 0xC2) := by omega
      have e3 : 0xC0 + c / 64 < 0xE0 := by omega
      have e4 : isContByte (0x80 + c % 64) = true := by
        simp only [isContByte, Bool.and_eq_true, decide_eq_true_eq]
        omega
      rw [henc]
      simp only [List.cons_append, List.nil_append, List.foldl_cons, utf8Step, e1, e2, e3, e4,
        if_true, if_false, ite_true, ite_false]
      have e5 : (0xC0 + c / 64 - 0xC0) * 64 + (0x80 + c % 64 - 0x80) = c := by omega
      rw [e5]
      have e6 : 0x80 ≤ c ∧ (c < 0xD800 ∨ 0xE000 ≤ c) ∧ c < 0x110000 := ⟨by omega, hsur, hlt⟩
      simp only [if_pos e6]
    · by_cases h3 : c < 0x10000
      · have henc : utf8EncodeChar c = [0xE0 + c / 4096, 0x80 + c / 64 % 64, 0x80 + c % 64] := by
          simp [utf8EncodeChar, h1, h2, h3]
        have e1 : ¬ (0xE0 + c / 4096 < 0x80) := by omega
        have e2 : ¬ (0xE0 + c / 4096 < 0xC2) := by omega
        have e3 : ¬ (0xE0 + c / 4096 < 0xE0) := by omega
        have e4 : 0xE0 + c / 4096 < 0xF0 := by omega
        have e5 : isContByte (0x80 + c / 64 % 64) = true := by
          simp only [isContByte, Bool.and_eq_true, decide_eq_true_eq]
          omega
        have e6 : isContByte (0x80 + c % 64) = true := by
          simp only [isContByte, Bool.and_eq_true, decide_eq_true_eq]
          omega
        rw [henc]
        simp only [List.cons_append, List.nil_append, List.foldl_cons, utf8Step, e1, e2, e3,
          e4, e5, e6, if_true, if_false, ite_true, ite_false]
        have e7 : ((0xE0 + c / 4096 - 0xE0) * 64 + (0x80 + c / 64 % 64 - 0x80)) * 64 +
            (0x80 + c % 64 - 0x80) = c := by omega
        rw [e7]
        have e8 : 0x800 ≤ c ∧ (c < 0xD800 ∨ 0xE000 ≤ c) ∧ c < 0x110000 := ⟨by omega, hsur, hlt⟩
        simp only [if_pos e8]
      · have henc : utf8EncodeChar c =
            [0xF0 + c / 262144, 0x80 + c / 4096 % 64, 0x80 + c / 64 % 64, 0x80 + c % 64] := by
          simp [utf8EncodeChar, h1, h2, h3]
        have e1 : ¬ (0xF0 + c / 262144 < 0x80) := by omega
        have e2 : ¬ (0xF0 + c / 262144 < 0xC2) := by omega
        have e3 : ¬ (0xF0 + c / 262144 < 0xE0) := by omega
        have e4 : ¬ (0xF0 + c / 262144 < 0xF0) := by omega
        have e5 : 0xF0 + c / 262144 < 0xF5 := by omega
        have e6 : isContByte (0x80 + c / 4096 % 64) = true := by
          simp only [isContByte, Bool.and_eq_true, decide_eq_true_eq]
          omega
        have e7 : isContByte (0x80 + c / 64 % 64) = true := by
          simp only [isContByte, Bool.and_eq_true, decide_eq_true_eq]
          omega
        have e8 : isContByte (0x80 + c % 64) = true := by
          simp only [isContByte, Bool.and_eq_true, decide_eq_true_eq]
          omega
        rw [henc]
        simp only [List.cons_append, List.nil_append, List.foldl_cons, utf8Step, e1, e2, e3,
          e4, e5, e6, e7, e8, if_true, if_false, ite_true, ite_false]
        have e9 : (((0xF0 + c / 262144 - 0xF0) * 64 + (0x80 + c / 4096 % 64 - 0x80)) * 64 +
            (0x80 + c / 64 % 64 - 0x80)) * 64 + (0x80 + c % 64 - 0x80) = c := by omega
        rw [e9]
        have e10 : 0x10000 ≤ c ∧ (c < 0xD800 ∨ 0xE000 ≤ c) ∧ c < 0x110000 :=
          ⟨by omega, hsur, hlt⟩
        simp only [if_pos e10]

/-- The decoding state machine run over the UTF-8 encoding of a whole valid
string appends the string to the clean state. -/
lemma foldl_utf8Step_encodeStr (s : List Nat) (h : ∀ c ∈ s, ValidCodepoint c)
    (acc : List Nat) :
    List.foldl utf8Step (.clean acc) (utf8EncodeStr s) = .clean (acc ++ s) := by
  induction s generalizing acc with
  | nil => simp [utf8EncodeStr]
  | cons c cs ih =>
    have hflat : utf8EncodeStr (c :: cs) = utf8EncodeChar c ++ utf8EncodeStr cs := by
      simp [utf8EncodeStr]
    rw [hflat, foldl_utf8Step_encodeChar c (h c (by simp)) acc (utf8EncodeStr cs),
      ih fun c' hc' => h c' (by simp [hc'])]
    simp

/-- The UTF-8 round trip for a string of valid codepoints. -/
lemma utf8Decode_utf8EncodeStr (s : List Nat) (h : ∀ c ∈ s, ValidCodepoint c) :
    utf8Decode (utf8EncodeStr s) = some s := by
  unfold utf8Decode
  rw [foldl_utf8Step_encodeStr s h []]
  simp

lemma pyLeaves_strList (ss : List (List Nat)) :
    pyLeaves (.list (ss.map PyVal.str)) = ss.map PyVal.str := by
  have : ∀ l : List (List Nat), pyLeavesList (l.map PyVal.str) = l.map PyVal.str := by
    intro l
    induction l with
    | nil => rfl
    | cons s rest ih => simp [pyLeavesList, pyLeaves, ih]
  simp [pyLeaves, this]

lemma mapM_castScalar_bytes (ss : List (List Nat)) :
    (ss.map PyVal.str).mapM (castScalar .bytes) =
      .ok (ss.map fun s => NpLit.bytes (utf8EncodeStr s)) := by
  induction ss with
  | nil => rfl
  | cons s rest ih =>
    rw [List.map_cons, List.mapM_cons, ih]
    rfl

/-- Claim C9: casting a result string list to byte-string encoding (the
byte-string output branch, `cast_output` with the bytes dtype) and decoding
it back (`str_ndarray2list`) yields the original list of strings. -/
theorem claim_C9_bytes_roundtrip (strs : List (List Nat))
    (h : ∀ s ∈ strs, ∀ c ∈ s, ValidCodepoint c) :
    ∃ arr, cast_output (.list (strs.map PyVal.str)) .bytes = .ok arr ∧
      str_ndarray2list arr = .ok strs := by
  refine ⟨{ dtype := .bytes, shape := [strs.length],
            data := strs.map fun s => NpLit.bytes (utf8EncodeStr s) }, ?_, ?_⟩
  · have hsh : np_shape (.list (strs.map PyVal.str)) = [strs.length] := np_shape_strList strs
    have hlv := pyLeaves_strList strs
    unfold cast_output
    rw [hlv, hsh]
    have hcond : ([strs.length].prod = (strs.map PyVal.str).length) := by simp
    rw [if_pos hcond, mapM_castScalar_bytes]
    rfl
  · unfold str_ndarray2list
    induction strs with
    | nil => rfl
    | cons s rest ih =>
      have hs : utf8Decode (utf8EncodeStr s) = some s :=
        utf8Decode_utf8EncodeStr s (h s (by simp))
      simp only [List.map_cons, List.mapM_cons, hs, ih fun s' hs' => h s' (by simp [hs'])]
      rfl

/-- Witness for claim C9's theorem at a concrete two-string list covering
one-, two-, three- and four-byte codepoints. -/
theorem claim_C9_bytes_roundtrip_witness :
    ∃ arr, cast_output (.list (([[72, 233], [0x20AC, 0x1F600]] :
        List (List Nat)).map PyVal.str)) .bytes = .ok arr ∧
      str_ndarray2list arr = .ok [[72, 233], [0x20AC, 0x1F600]] :=
  claim_C9_bytes_roundtrip [[72, 233], [0x20AC, 0x1F600]] (by decide)

lemma mapM_tensorFloatNumpy (rows : List (List Rat)) :
    (rows.map fun r => PyVal.tensor .bfloat16 r).mapM tensorFloatNumpy =
      .ok (rows.map fun r =>
        ({ dtype := .single, shape := [r.length], data := r.map NpLit.num } : NpArray)) := by
  induction rows with
  | nil => rfl
  | cons r rest ih =>
    rw [List.map_cons, List.mapM_cons, ih]
    rfl

lemma np_stackArrays_uniform (rows : List (List Rat)) (r0 : List Rat) (m : Nat)
    (hm : ∀ r ∈ r0 :: rows, r.length = m) :
    np_stackArrays ((r0 :: rows).map fun r =>
        ({ dtype := .single, shape := [r.length], data := r.map NpLit.num } : NpArray)) =
      .ok { dtype := .single, shape := [rows.length + 1, m],
            data := ((r0 :: rows).map fun r => r.map NpLit.num).flatten } := by
  have hmap : ((r0 :: rows).map fun r =>
        ({ dtype := .single, shape := [r.length], data := r.map NpLit.num } : NpArray)) =
      ((r0 :: rows).map fun r =>
        ({ dtype := .single, shape := [m], data := r.map NpLit.num } : NpArray)) :=
    List.map_congr_left fun r hr => by rw [hm r hr]
  rw [hmap]
  simp only [List.map_cons, np_stackArrays]
  have hall : (rows.map fun r =>
      ({ dtype := .single, shape := [m], data := r.map NpLit.num } : NpArray)).all
        (fun b => b.shape == [m] && b.dtype == NumpyDtype.single) = true := by
    simp [List.all_eq_true]
  rw [if_pos hall]
  simp [List.map_map, Function.comp_def]

/-- Claim C8: a field whose generate-result elements are bfloat16 torch
tensors takes the `tensor.cpu().float().numpy()` branch: every element is
upcast to standard single-precision float32 (values preserved exactly)
before the numpy conversion, giving a float32 array of the stacked rows. -/
theorem claim_C8_bfloat16_upcast (fieldName : String) (r0 : List Rat)
    (rows : List (List Rat)) (m : Nat) (sv : Option PyVal)
    (hf : fieldName ∈ (["logprob", "full_logprob", "token_ids", "offsets"] : List String))
    (hm : ∀ r ∈ r0 :: rows, r.length = m) :
    convertField fieldName
        (some (.list ((r0 :: rows).map fun r => PyVal.tensor .bfloat16 r))) sv =
      .ok { dtype := .single, shape := [rows.length + 1, m],
            data := ((r0 :: rows).map fun r => r.map NpLit.num).flatten } := by
  have hmapM := mapM_tensorFloatNumpy (r0 :: rows)
  have hstack := np_stackArrays_uniform rows r0 m hm
  fin_cases hf
  · calc convertField "logprob"
          (some (.list ((r0 :: rows).map fun r => PyVal.tensor .bfloat16 r))) sv
        = Except.bind (((r0 :: rows).map fun r => PyVal.tensor .bfloat16 r).mapM
            tensorFloatNumpy) np_stackArrays := rfl
      _ = Except.bind (Except.ok ((r0 :: rows).map fun r =>
            ({ dtype := .single, shape := [r.length], data := r.map NpLit.num } : NpArray)))
            np_stackArrays := by rw [hmapM]
      _ = _ := hstack
  · calc convertField "full_logprob"
          (some (.list ((r0 :: rows).map fun r => PyVal.tensor .bfloat16 r))) sv
        = Except.bind (((r0 :: rows).map fun r => PyVal.tensor .bfloat16 r).mapM
            tensorFloatNumpy) np_stackArrays := rfl
      _ = Except.bind (Except.ok ((r0 :: rows).map fun r =>
            ({ dtype := .single, shape := [r.length], data := r.map NpLit.num } : NpArray)))
            np_stackArrays := by rw [hmapM]
      _ = _ := hstack
  · calc convertField "token_ids"
          (some (.list ((r0 :: rows).map fun r => PyVal.tensor .bfloat16 r))) sv
        = Except.bind (((r0 :: rows).map fun r => PyVal.tensor .bfloat16 r).mapM
            tensorFloatNumpy) np_stackArrays := rfl
      _ = Except.bind (Except.ok ((r0 :: rows).map fun r =>
            ({ dtype := .single, shape := [r.length], data := r.map NpLit.num } : NpArray)))
            np_stackArrays := by rw [hmapM]
      _ = _ := hstack
  · calc convertField "offsets"
          (some (.list ((r0 :: rows).map fun r => PyVal.tensor .bfloat16 r))) sv
        = Except.bind (((r0 :: rows).map fun r => PyVal.tensor .bfloat16 r).mapM
            tensorFloatNumpy) np_stackArrays := rfl
      _ = Except.bind (Except.ok ((r0 :: rows).map fun r =>
            ({ dtype := .single, shape := [r.length], data := r.map NpLit.num } : NpArray)))
            np_stackArrays := by rw [hmapM]
      _ = _ := hstack

/-- Witness for claim C8's theorem: a bfloat16 logprob field with two
tensors of two values each becomes a float32 array of shape (2, 2) holding
the same values. -/
theorem claim_C8_bfloat16_upcast_witness :
    convertField "logprob"
        (some (.list (([[1 / 2, 3 / 2], [5, 7]] :
          List (List Rat)).map fun r => PyVal.tensor .bfloat16 r))) none =
      .ok { dtype := .single, shape := [1 + 1, 2],
            data := (([[1 / 2, 3 / 2], [5, 7]] :
              List (List Rat)).map fun r => r.map NpLit.num).flatten } :=
  claim_C8_bfloat16_upcast "logprob" [1 / 2, 3 / 2] [[5, 7]] 2 none (by decide) (by decide)

/-- Claim C7: with a checkpoint path that does not exist on the filesystem
the constructor still returns an instance — nothing is raised — but `_load`
never sets the model attribute, and any inference invocation whose
marshalling succeeds then fails with an `AttributeError` at the first use
of `self.model`, not a clean named failure. -/
theorem claim_C7_missing_checkpoint (fsExists : String → Bool)
    (restore : String → Nat → Nat → GenFn) (path : String) (nd nn : Nat)
    (sd ld : List (String × PyVal)) (inputs : List (String × NpArray))
    (p : List (List Nat) × List (String × ParamVal) × List (String × ParamVal))
    (hmiss : fsExists path = false)
    (hprep : triton_infer_prepare sd ld inputs = .ok p) :
    (construct fsExists restore path nd nn).model = none ∧
    triton_infer_fn (construct fsExists restore path nd nn) sd ld inputs =
      .error .attributeError := by
  have hm : (construct fsExists restore path nd nn).model = none := by
    simp [construct, _load, hmiss]
  refine ⟨hm, ?_⟩
  unfold triton_infer_fn
  rw [hprep]
  simp [Bind.bind, Except.bind, getModel, hm]

/-- A generate function for witnesses whose model produces no fields. -/
def blankGen : GenFn := fun _ _ _ =>
  { sentences := none, tokens := none, logprob := none, full_logprob := none,
    token_ids := none, offsets := none }

/-- A minimal request batch holding one one-character prompt. -/
def onePromptInputs : List (String × NpArray) :=
  [("prompts", { dtype := .bytes, shape := [1, 1], data := [.bytes [72]] })]

/-- Witness for claim C7's theorem: constructing against a filesystem with
no files yields a model-less instance whose inference call raises
`AttributeError`. -/
theorem claim_C7_missing_checkpoint_witness :
    (construct (fun _ => false) (fun _ _ _ => blankGen) "model.nemo" 1 1).model = none ∧
    triton_infer_fn (construct (fun _ => false) (fun _ _ _ => blankGen) "model.nemo" 1 1)
      [] [] onePromptInputs = .error .attributeError :=
  claim_C7_missing_checkpoint (fun _ => false) (fun _ _ _ => blankGen) "model.nemo" 1 1
    [] [] onePromptInputs ([[72]], [], []) rfl rfl

/-- A successful run of the output-marshalling loop produces one entry per
iterated field, stored under that field's name, in order. -/
lemma mapM_convert_fst (items : List (String × Option PyVal)) (sv : Option PyVal)
    (out : List (String × NpArray))
    (h : items.mapM (fun item =>
        (convertField item.1 item.2 sv).map fun arr => (item.1, arr)) = .ok out) :
    out.map Prod.fst = items.map Prod.fst := by
  induction items generalizing out with
  | nil =>
    simp only [List.mapM_nil] at h
    simp only [pure, Except.pure, Except.ok.injEq] at h
    rw [← h]
    rfl
  | cons it rest ih =>
    rw [List.mapM_cons] at h
    obtain ⟨a, ha, h⟩ := except_bind_ok h
    obtain ⟨ys, hys, h⟩ := except_bind_ok h
    obtain ⟨arr, _, hfa⟩ := except_map_ok ha
    simp only [pure, Except.pure, Except.ok.injEq] at h
    rw [← h]
    have ha1 : a.1 = it.1 := by
      rw [← hfa]
    simp [ha1, ih ys hys]

/-- Claim C1: whenever `triton_infer_fn` returns normally, the returned
mapping holds exactly the six output-schema keys, in schema order — a field
the generate result left null having been filled by the broadcast-default
branch rather than dropped. -/
theorem claim_C1_output_keys (d : MegatronGPTDeployable) (sd ld : List (String × PyVal))
    (inputs : List (String × NpArray)) (out : List (String × NpArray))
    (h : triton_infer_fn d sd ld inputs = .ok out) :
    out.map Prod.fst =
      ["sentences", "tokens", "logprob", "full_logprob", "token_ids", "offsets"] := by
  unfold triton_infer_fn at h
  obtain ⟨p, hp, h⟩ := except_bind_ok h
  obtain ⟨gen, hg, h⟩ := except_bind_ok h
  exact mapM_convert_fst (outputItems (gen p.1 p.2.2 p.2.1))
    (gen p.1 p.2.2 p.2.1).sentences out h

/-- A generate function for the C1 witness: only `sentences` is produced,
every other field is null and must be filled by the adapter. -/
def oneSentenceGen : GenFn := fun _ _ _ =>
  { sentences := some (.list [.str [72]]), tokens := none, logprob := none,
    full_logprob := none, token_ids := none, offsets := none }

/-- The adapter output of the C1 witness run: all six fields present, the
null ones filled with broadcast defaults. -/
def oneSentenceOut : List (String × NpArray) :=
  [("sentences", { dtype := .bytes, shape := [1], data := [.bytes [72]] }),
   ("tokens", { dtype := .bytes, shape := [1], data := [.bytes []] }),
   ("logprob", { dtype := .single, shape := [1], data := [.num 0] }),
   ("full_logprob", { dtype := .single, shape := [1], data := [.num 0] }),
   ("token_ids", { dtype := .int_, shape := [1], data := [.num 0] }),
   ("offsets", { dtype := .int_, shape := [1], data := [.num 0] })]

/-- Witness for claim C1's theorem at a complete concrete run in which the
model produced only `sentences`. -/
theorem claim_C1_output_keys_witness :
    oneSentenceOut.map Prod.fst =
      ["sentences", "tokens", "logprob", "full_logprob", "token_ids", "offsets"] :=
  claim_C1_output_keys
    { nemo_checkpoint_filepath := "model.nemo", model := some oneSentenceGen }
    [] [] onePromptInputs oneSentenceOut rfl
